import Mathlib

/-!
Verification of the canvas-mutation replay engine of
`frontend/src/scenes/session-recordings/player/rrweb/canvas/canvas-plugin.ts`.

Shallow-embedding conventions:
* JavaScript `Map`s become association lists (`List (κ × α)` read through
  `List.lookup`; `set` is modelled by prepending, which shadows older
  entries exactly as `Map.set` overwrites).  The JavaScript `Set`
  `preloadBuffer` becomes a `Finset Nat`.
* Map and Set keys in the source are the event objects themselves
  (reference identity); that identity is embedded as the field `eventId`.
* The asynchronous decode pipeline is embedded as explicit state passing.
  `await Promise.all` over the argument list is sequentialised; a rejected
  decode makes the whole resolution fail, exactly as the rejection of
  `Promise.all` propagates out of `deserializeAndPreloadCanvasEvents`
  (which has no try/catch).
* `async` functions run synchronously up to their first `await`; the replay
  apply `processMutation` is therefore split into `applyPhase1` (the
  synchronous prefix: mirror lookup, clone, resize) and `applyPhase2` (the
  effect of the awaited external `canvasMutation` call completing, plus the
  placeholder publish).  A small step machine (`schedStep` / `runSched`)
  interleaves overlapping applies the way the event loop may.
* The external `rrweb` `canvasMutation` replays the resolved draw calls on
  the target; its effect is abstracted as appending the event to the
  target's `drawLog` (pixel semantics are outside the claims); an
  individual draw error is surfaced through the plugin's `errorHandler`.
* The ghost fields `decodeCount` (decodes performed per payload) and
  `reported` (errors handed to `captureException`) instrument the state;
  no plugin code branches on them.
-/

namespace CanvasPlugin

/-- A draw-call argument (source type `CanvasArg`).  `isRef` marks a
serialized reference to an external binary/image payload; `payload` is the
payload identity (the serialized content / data URL). -/
structure CanvasArg where
  isRef : Bool
  payload : String
  deriving DecidableEq

/-- One draw command of a batched mutation: a method name and its
argument list. -/
structure DrawCommand where
  method : String
  args : List CanvasArg
  deriving DecidableEq

/-- `canvasMutationData` carries either a batch of commands
(`'commands' in data`) or a single draw call with its `args`. -/
inductive MutationPayload where
  | batch (commands : List DrawCommand)
  | single (method : String) (args : List CanvasArg)
  deriving DecidableEq

/-- A canvas mutation event (`CanvasEventWithTime`).  `eventId` embeds the
JavaScript object identity used as Map/Set key; `id` is `data.id`, the
recorded canvas node id. -/
structure CanvasEvent where
  eventId : Nat
  id : Nat
  payload : MutationPayload
  deriving DecidableEq

/-- A replay stream event (`eventWithTime`): either a canvas mutation or
any other recorded event. -/
inductive REvent where
  | canvas (c : CanvasEvent)
  | other (tag : Nat)
  deriving DecidableEq

/-- `isCanvasMutation`: the type/source tag test of lines 13-15. -/
def isCanvasMutation : REvent → Bool
  | REvent.canvas _ => true
  | REvent.other _ => false

/-- `canvasMutationEvents = events.filter(isCanvasMutation)` (line 31): the
ordered canvas-event subsequence of the stream. -/
def canvasMutationEvents : List REvent → List CanvasEvent
  | [] => []
  | REvent.canvas c :: rest => c :: canvasMutationEvents rest
  | REvent.other _ :: rest => canvasMutationEvents rest

/-- A resolved draw argument: either the unchanged original value or a
decoded image handle (the decoded value is abstracted as a `Nat` handle). -/
inductive ResolvedArg where
  | plain (a : CanvasArg)
  | decoded (handle : Nat)
  deriving DecidableEq

/-- A resolved draw command (`{ ...c, args }`). -/
structure ResolvedCommand where
  method : String
  args : List ResolvedArg
  deriving DecidableEq

/-- A resolved mutation payload (`{ ...data, commands }` respectively
`{ ...data, args }`), the value type of `canvasEventMap`. -/
inductive ResolvedPayload where
  | batch (commands : List ResolvedCommand)
  | single (method : String) (args : List ResolvedArg)
  deriving DecidableEq

/-- The source node returned by the mirror (`HTMLCanvasElement`): its
width/height attributes (copied by `cloneNode`) and its client (visible)
dimensions read at apply time. -/
structure SourceNode where
  attrWidth : Nat
  attrHeight : Nat
  clientWidth : Nat
  clientHeight : Nat
  deriving DecidableEq

/-- An off-screen replay target canvas: its current dimensions and the
ordered log of mutation events whose draw calls have taken effect on it. -/
structure CanvasTarget where
  width : Nat
  height : Nat
  drawLog : List Nat
  deriving DecidableEq

/-- The on-screen placeholder image for a canvas id; `src` holds the last
published rendering of the target (`img.src = target.toDataURL()`). -/
structure Placeholder where
  src : Option CanvasTarget
  deriving DecidableEq

/-- The mirror supplied by the replayer: recorded node id to live node. -/
abbrev Mirror := List (Nat × SourceNode)

/-- The mutable state captured by the plugin closure (lines 24-29), plus
the two ghost instrumentation fields `decodeCount` and `reported`. -/
structure PluginState where
  imageMap : List (String × Nat)
  canvasEventMap : List (Nat × ResolvedPayload)
  preloadBuffer : Finset Nat
  nextPreloadIndex : Option Int
  canvases : List (Nat × CanvasTarget)
  containers : List (Nat × Placeholder)
  decodeCount : List (String × Nat)
  reported : List String
  deriving DecidableEq

/-- The state at plugin construction: every map empty, cursor `null`. -/
def initState : PluginState :=
  { imageMap := [], canvasEventMap := [], preloadBuffer := ∅,
    nextPreloadIndex := none, canvases := [], containers := [],
    decodeCount := [], reported := [] }

/-- Number of decodes performed so far for a payload (ghost). -/
def countOf (p : String) (m : List (String × Nat)) : Nat :=
  (m.lookup p).getD 0

/-- Record one more decode of a payload (ghost). -/
def bumpCount (p : String) (m : List (String × Nat)) : List (String × Nat) :=
  (p, countOf p m + 1) :: m

/-- `PRELOAD_BUFFER_SIZE` (line 21). -/
def PRELOAD_BUFFER_SIZE : Nat := 30

/-- `findEvent` (lines 17-19): `events.findIndex(ev => ev.data.id ===
target.data.id)` — the first index whose canvas id matches the canvas id
of the target event, `-1` when none does. -/
def findEvent (events : List CanvasEvent) (target : CanvasEvent) : Int :=
  match events.findIdx? (fun ev => ev.id == target.id) with
  | some i => (i : Int)
  | none => -1

/-- ECMAScript `Array.prototype.slice` with signed start/end. -/
def jsSlice {α : Type} (l : List α) (s e : Int) : List α :=
  let len : Int := (l.length : Int)
  let s1 : Int := if s < 0 then max (len + s) 0 else min s len
  let e1 : Int := if e < 0 then max (len + e) 0 else min e len
  (l.drop s1.toNat).take (e1 - s1).toNat

/-- Modelled from the spec: `deserializeCanvasArg` lives in
`deserialize-canvas-args.ts`, which the plugin imports but which is not
among the sources.  Per section 4.2 it resolves one draw argument: a
SerializedReference is decoded asynchronously, sharing decoded handles
through the payload-to-handle cache `imageMap` so identical payloads are
decoded only once; any resolution of a reference marks the shared status
as changed (`isUnchanged := false`); a primitive / already-resolved
argument is returned unchanged.  The decode itself is abstracted as the
oracle `decode`; `none` is a rejected decode.  The ghost `decodeCount` is
bumped exactly when an actual decode happens (a cache miss). -/
def deserializeCanvasArg (decode : String → Option Nat) (st : PluginState)
    (isUnchanged : Bool) (arg : CanvasArg) :
    PluginState × Option (Bool × ResolvedArg) :=
  if arg.isRef then
    match st.imageMap.lookup arg.payload with
    | some h => (st, some (false, ResolvedArg.decoded h))
    | none =>
      match decode arg.payload with
      | some h =>
          ({ st with imageMap := (arg.payload, h) :: st.imageMap,
                     decodeCount := bumpCount arg.payload st.decodeCount },
           some (false, ResolvedArg.decoded h))
      | none => (st, none)
  else (st, some (isUnchanged, ResolvedArg.plain arg))

/-- `await Promise.all((args).map(deserializeCanvasArg(imageMap, null,
status)))`, sequentialised; the first rejected decode fails the whole
resolution. -/
def resolveArgs (decode : String → Option Nat) (st : PluginState)
    (isUnchanged : Bool) :
    List CanvasArg → PluginState × Option (Bool × List ResolvedArg)
  | [] => (st, some (isUnchanged, []))
  | a :: rest =>
    match deserializeCanvasArg decode st isUnchanged a with
    | (st1, none) => (st1, none)
    | (st1, some (u1, r)) =>
      match resolveArgs decode st1 u1 rest with
      | (st2, none) => (st2, none)
      | (st2, some (u2, rs)) => (st2, some (u2, r :: rs))

/-- Resolution of a batch: each command's argument list in order
(lines 38-45). -/
def resolveCommands (decode : String → Option Nat) (st : PluginState)
    (isUnchanged : Bool) :
    List DrawCommand → PluginState × Option (Bool × List ResolvedCommand)
  | [] => (st, some (isUnchanged, []))
  | c :: rest =>
    match resolveArgs decode st isUnchanged c.args with
    | (st1, none) => (st1, none)
    | (st1, some (u1, rs)) =>
      match resolveCommands decode st1 u1 rest with
      | (st2, none) => (st2, none)
      | (st2, some (u2, rcs)) =>
        (st2, some (u2, { method := c.method, args := rs } :: rcs))

/-- `deserializeAndPreloadCanvasEvents` (lines 33-58): skip when the event
is already in `canvasEventMap`; otherwise resolve every argument with a
fresh `status = { isUnchanged: true }` and store the resolved mutation
only when `status.isUnchanged === false`.  The returned Bool is `false`
when a decode rejected (the promise rejects; nothing was stored for the
event and there is no catch handler on this path). -/
def deserializeAndPreloadCanvasEvents (decode : String → Option Nat)
    (st : PluginState) (e : CanvasEvent) : PluginState × Bool :=
  if (st.canvasEventMap.lookup e.eventId).isSome then (st, true)
  else
    match e.payload with
    | MutationPayload.batch cmds =>
      match resolveCommands decode st true cmds with
      | (st1, none) => (st1, false)
      | (st1, some (u, rcmds)) =>
        if u = false then
          ({ st1 with canvasEventMap :=
              (e.eventId, ResolvedPayload.batch rcmds) :: st1.canvasEventMap },
           true)
        else (st1, true)
    | MutationPayload.single m args =>
      match resolveArgs decode st true args with
      | (st1, none) => (st1, false)
      | (st1, some (u, rargs)) =>
        if u = false then
          ({ st1 with canvasEventMap :=
              (e.eventId, ResolvedPayload.single m rargs) :: st1.canvasEventMap },
           true)
        else (st1, true)

/-- Result of one iteration of the preload loop body on one event:
the final state, whether the iteration completed (`ok = false` when the
awaited resolution rejected, in which case the `delete` on line 125 was
never reached), whether the event was enqueued (added to the buffer), and
the buffer contents while the resolution was in flight. -/
structure StepOut where
  st : PluginState
  ok : Bool
  enq : Bool
  mid : Finset Nat
  deriving DecidableEq

/-- The body of the `for` loop of `preload` (lines 121-127): guard on
membership in `preloadBuffer` and `canvasEventMap`, add to the buffer,
await the resolution, then remove from the buffer. -/
def preloadStep (decode : String → Option Nat) (st : PluginState)
    (e : CanvasEvent) : StepOut :=
  if e.eventId ∉ st.preloadBuffer ∧ st.canvasEventMap.lookup e.eventId = none then
    let st1 : PluginState :=
      { st with preloadBuffer := insert e.eventId st.preloadBuffer }
    match deserializeAndPreloadCanvasEvents decode st1 e with
    | (st2, true) =>
      ⟨{ st2 with preloadBuffer := st2.preloadBuffer.erase e.eventId },
       true, true, st1.preloadBuffer⟩
    | (st2, false) => ⟨st2, false, true, st1.preloadBuffer⟩
  else ⟨st, true, false, st.preloadBuffer⟩

/-- Result of a whole `preload` call: final state, whether every awaited
resolution succeeded (a rejection aborts the loop and rejects the preload
promise), the events enqueued into the buffer in order, and the trace of
buffer contents observed while the loop ran. -/
structure LoopOut where
  st : PluginState
  ok : Bool
  enqueued : List CanvasEvent
  trace : List (Finset Nat)
  deriving DecidableEq

/-- The `for (const event of eventsToPreload)` loop (lines 121-127); a
rejected resolution aborts the remaining iterations. -/
def preloadLoop (decode : String → Option Nat) (st : PluginState) :
    List CanvasEvent → LoopOut
  | [] => ⟨st, true, [], []⟩
  | e :: rest =>
    let s := preloadStep decode st e
    if s.ok then
      let out := preloadLoop decode s.st rest
      ⟨out.st, out.ok, (if s.enq then [e] else []) ++ out.enqueued,
       s.mid :: s.st.preloadBuffer :: out.trace⟩
    else
      ⟨s.st, false, (if s.enq then [e] else []),
       [s.mid, s.st.preloadBuffer]⟩

/-- Lines 108-112: `nextPreloadIndex ? nextPreloadIndex : currentEvent ?
findEvent(...) : 0`, with JavaScript truthiness (`null` and `0` both fall
through to the fallback). -/
def preloadStartIndex (events : List CanvasEvent) (cursor : Option Int)
    (currentEvent : Option CanvasEvent) : Int :=
  let fallback : Int :=
    match currentEvent with
    | some e => findEvent events e
    | none => 0
  match cursor with
  | some n => if n = 0 then fallback else n
  | none => fallback

/-- `preload` (lines 107-128), the scheduler advance: compute the start
index, slice up to `PRELOAD_BUFFER_SIZE - preloadBuffer.size` upcoming
events, set `nextPreloadIndex = currentIndex + 1`, then run the loop. -/
def preload (decode : String → Option Nat) (events : List CanvasEvent)
    (st : PluginState) (currentEvent : Option CanvasEvent) : LoopOut :=
  let currentIndex : Int :=
    preloadStartIndex events st.nextPreloadIndex currentEvent
  let eventsToPreload : List CanvasEvent :=
    jsSlice events currentIndex
      (currentIndex + (PRELOAD_BUFFER_SIZE : Int) - (st.preloadBuffer.card : Int))
  let st1 : PluginState := { st with nextPreloadIndex := some (currentIndex + 1) }
  preloadLoop decode st1 eventsToPreload

/-- A sequence of `preload` (advance) calls run back to back; returns the
final state, the concatenated buffer trace (including the buffer before
each call) and the concatenated enqueue log. -/
def runAdvances (decode : String → Option Nat) (events : List CanvasEvent)
    (st : PluginState) :
    List (Option CanvasEvent) → PluginState × List (Finset Nat) × List CanvasEvent
  | [] => (st, [st.preloadBuffer], [])
  | c :: cs =>
    let out := preload decode events st c
    let rest := runAdvances decode events out.st cs
    (rest.1, st.preloadBuffer :: out.trace ++ rest.2.1,
     out.enqueued ++ rest.2.2)

/-- The scheduler reset performed on a sync (scrub) event:
`nextPreloadIndex = null` (line 150). -/
def reset (st : PluginState) : PluginState :=
  { st with nextPreloadIndex := none }

/-- The `errorHandler` closure passed to `canvasMutation` (lines 85-91):
the error is handed to the external reporting collaborator. -/
def errorHandler (err : String) (st : PluginState) : PluginState :=
  { st with reported := st.reported ++ [err] }

/-- `cloneCanvas` (lines 60-65): clone the source node (the clone copies
the width/height attributes but none of the drawn content) and register it
in `canvases`. -/
def cloneCanvas (id : Nat) (node : SourceNode) (st : PluginState) :
    CanvasTarget × PluginState :=
  let cloneNode : CanvasTarget :=
    { width := node.attrWidth, height := node.attrHeight, drawLog := [] }
  (cloneNode, { st with canvases := (id, cloneNode) :: st.canvases })

/-- Outcome of the synchronous prefix of `processMutation`: `skip` when no
target was obtained (line 72-74), `threw` when `target.width =
source.clientWidth` dereferenced a null source (target cached but node
missing from the mirror), `proceed` when the resize succeeded and the
awaited `canvasMutation` was started. -/
inductive Phase1Result where
  | skip
  | threw
  | proceed
  deriving DecidableEq

/-- The synchronous prefix of `processMutation` (lines 67-77): mirror
lookup, `canvases.get(data.id) || (source && cloneCanvas(data.id,
source))`, early return on no target, then the resize from the client
dimensions of the source. -/
def applyPhase1 (mirror : Mirror) (st : PluginState) (e : CanvasEvent) :
    PluginState × Phase1Result :=
  match st.canvases.lookup e.id, mirror.lookup e.id with
  | none, none => (st, Phase1Result.skip)
  | some _, none => (st, Phase1Result.threw)
  | tOpt, some src =>
    let picked : CanvasTarget × PluginState :=
      match tOpt with
      | some t => (t, st)
      | none => cloneCanvas e.id src st
    let t1 : CanvasTarget :=
      { picked.1 with width := src.clientWidth, height := src.clientHeight }
    ({ picked.2 with canvases := (e.id, t1) :: picked.2.canvases },
     Phase1Result.proceed)

/-- The completion of the awaited external `canvasMutation` call plus the
placeholder publish (lines 79-97): the draw calls of the event take effect
on the target (abstracted as appending the event to the draw log; an
individual draw error is reported through `errorHandler` and replay
continues), then, when a placeholder container exists for the id, the
rendered target is published into it. -/
def applyPhase2 (st : PluginState) (e : CanvasEvent)
    (drawError : Option String) : PluginState :=
  let st0 : PluginState :=
    match drawError with
    | some err => errorHandler err st
    | none => st
  match st0.canvases.lookup e.id with
  | none => st0
  | some t =>
    let t1 : CanvasTarget := { t with drawLog := t.drawLog ++ [e.eventId] }
    let st1 : PluginState := { st0 with canvases := (e.id, t1) :: st0.canvases }
    match st1.containers.lookup e.id with
    | some _ =>
      { st1 with containers := (e.id, ⟨some t1⟩) :: st1.containers }
    | none => st1

/-- `processMutation` (lines 67-98) run to completion with no overlapping
apply: phase 1 followed, when it proceeds, by phase 2. -/
def processMutation (mirror : Mirror) (st : PluginState) (e : CanvasEvent)
    (drawError : Option String) : PluginState × Phase1Result :=
  match applyPhase1 mirror st e with
  | (st1, Phase1Result.proceed) =>
    (applyPhase2 st1 e drawError, Phase1Result.proceed)
  | r => r

/-- `handler` (lines 146-156).  On `isSync` it clears the preload cursor
and, for a canvas mutation, fires `void processMutation(e, replayer)` —
whose synchronous prefix runs immediately; the returned event is the
spawned pending apply awaiting its `canvasMutation`.  Otherwise it does
nothing. -/
def handler (mirror : Mirror) (st : PluginState) (e : REvent)
    (isSync : Bool) : PluginState × Option CanvasEvent :=
  if isSync then
    let st1 : PluginState := reset st
    match e with
    | REvent.canvas c =>
      match applyPhase1 mirror st1 c with
      | (st2, Phase1Result.proceed) => (st2, some c)
      | (st2, _) => (st2, none)
    | REvent.other _ => (st1, none)
  else (st, none)

/-- One step of the cooperative event loop over applies: `arrive e` is a
handler invocation with `isSync = true` (its synchronous prefix runs at
once, the pending apply is queued); `complete eid err` is the awaited
`canvasMutation` of the pending apply `eid` settling (with an optional
draw error), at which point its draw calls have taken effect. -/
inductive PStep where
  | arrive (e : REvent)
  | complete (eventId : Nat) (drawError : Option String)
  deriving DecidableEq

/-- The scheduler state: the plugin state plus the applies whose
`canvasMutation` is still pending. -/
structure Sched where
  st : PluginState
  pending : List CanvasEvent
  deriving DecidableEq

/-- Execute one event-loop step. -/
def schedStep (mirror : Mirror) (s : Sched) : PStep → Sched
  | PStep.arrive e =>
    let r := handler mirror s.st e true
    { st := r.1,
      pending := s.pending ++ (match r.2 with
        | some c => [c]
        | none => []) }
  | PStep.complete eid err =>
    match s.pending.find? (fun c => c.eventId == eid) with
    | some c =>
      { st := applyPhase2 s.st c err,
        pending := s.pending.eraseP (fun c => c.eventId == eid) }
    | none => s

/-- Execute a sequence of event-loop steps. -/
def runSched (mirror : Mirror) (s : Sched) : List PStep → Sched
  | [] => s
  | p :: ps => runSched mirror (schedStep mirror s p) ps

/-- A step sequence is valid when every `complete` settles an apply that
is actually pending at that point: only spawned applies can complete. -/
def validFrom (mirror : Mirror) (s : Sched) : List PStep → Bool
  | [] => true
  | p :: ps =>
    (match p with
     | PStep.complete eid _ =>
       (s.pending.find? (fun c => c.eventId == eid)).isSome
     | PStep.arrive _ => true) &&
    validFrom mirror (schedStep mirror s p) ps

/-- The recorded order in which canvas mutations for a given canvas id are
delivered to the handler in a step sequence. -/
def arrivals (cid : Nat) : List PStep → List Nat
  | [] => []
  | PStep.arrive (REvent.canvas c) :: ps =>
    (if c.id = cid then [c.eventId] else []) ++ arrivals cid ps
  | _ :: ps => arrivals cid ps

/-- The draw log of the target of a canvas id (empty when no target). -/
def drawLogAt (st : PluginState) (cid : Nat) : List Nat :=
  match st.canvases.lookup cid with
  | some t => t.drawLog
  | none => []

/-- The fully serialized schedule: each apply completes before the next
event arrives (no overlap). -/
def serializedSteps : List CanvasEvent → List PStep
  | [] => []
  | c :: cs =>
    PStep.arrive (REvent.canvas c) :: PStep.complete c.eventId none ::
      serializedSteps cs

/-- The payloads of the SerializedReference arguments of an argument
list, in order. -/
def refPayloadsArgs : List CanvasArg → List String
  | [] => []
  | a :: rest => (if a.isRef then [a.payload] else []) ++ refPayloadsArgs rest

/-- The payloads of all SerializedReference arguments of a mutation
event. -/
def refPayloads (e : CanvasEvent) : List String :=
  match e.payload with
  | MutationPayload.batch cmds =>
    (cmds.map (fun c => refPayloadsArgs c.args)).flatten
  | MutationPayload.single _ args => refPayloadsArgs args

/-! ## Concrete inputs used by counterexamples and witnesses -/

/-- The state of the claim C7 counterexample: a CanvasTarget for canvas
id 5 already exists (created by an earlier apply while the node was
mounted in the mirror). -/
def c7State : PluginState :=
  { initState with canvases := [(5, ⟨4, 4, []⟩)] }

/-- Mirror of the claim C5 counterexample: canvas id 5 is live. -/
def c5Mirror : Mirror := [(5, ⟨10, 10, 20, 20⟩)]

/-- First recorded mutation of the claim C5 counterexample. -/
def c5E1 : CanvasEvent := ⟨1, 5, MutationPayload.single "fillRect" []⟩

/-- Second recorded mutation of the claim C5 counterexample, for the same
canvas id. -/
def c5E2 : CanvasEvent := ⟨2, 5, MutationPayload.single "clearRect" []⟩

/-- The interleaving of the claim C5 counterexample: both applies are
spawned (their resizes run synchronously), then the awaited
`canvasMutation` of the second settles before that of the first. -/
def c5Steps : List PStep :=
  [PStep.arrive (REvent.canvas c5E1), PStep.arrive (REvent.canvas c5E2),
   PStep.complete 2 none, PStep.complete 1 none]

/-- Decode oracle of the claim C1 witness: every payload decodes. -/
def c1Decode : String → Option Nat := fun _ => some 0

/-- Stream of the claim C1 witness: one canvas mutation with a reference
argument. -/
def c1Stream : List REvent :=
  [REvent.canvas ⟨40, 9, MutationPayload.single "drawImage" [⟨true, "w"⟩]⟩]

/-- Decode oracle of the claim C2 counterexample and witness. -/
def c2Decode : String → Option Nat := fun _ => some 0

/-- First recorded mutation of the claim C2 counterexample; canvas id 5. -/
def c2E0 : CanvasEvent := ⟨7, 5, MutationPayload.single "fillRect" [⟨false, "a"⟩]⟩

/-- Second recorded mutation of the claim C2 counterexample, a different
event for the same canvas id 5. -/
def c2E1 : CanvasEvent := ⟨8, 5, MutationPayload.single "strokeRect" [⟨false, "b"⟩]⟩

/-- Decode oracle of the claim C3 witness: every payload decodes. -/
def c3Decode : String → Option Nat := fun _ => some 0

/-- Event of the claim C3 witness: two SerializedReference arguments
sharing one payload. -/
def c3E : CanvasEvent :=
  ⟨30, 7, MutationPayload.single "drawImage" [⟨true, "img"⟩, ⟨true, "img"⟩]⟩

/-- Decode oracle of the claim C4 witness. -/
def c4Decode : String → Option Nat := fun _ => some 0

/-- Event of the claim C4 witness: primitive-only arguments. -/
def c4E : CanvasEvent :=
  ⟨35, 8, MutationPayload.batch
    [⟨"fillRect", [⟨false, "0"⟩, ⟨false, "1"⟩]⟩, ⟨"save", []⟩]⟩

/-- Decode oracle of the claim C6 counterexample: the payload "bad"
rejects, everything else decodes. -/
def c6Decode : String → Option Nat := fun p => if p == "bad" then none else some 7

/-- The mutation of the claim C6 counterexample whose reference payload
fails to decode. -/
def c6Fail : CanvasEvent := ⟨20, 5, MutationPayload.single "drawImage" [⟨true, "bad"⟩]⟩

/-- The next mutation behind the failing one in the claim C6
counterexample; its payload decodes fine. -/
def c6Next : CanvasEvent := ⟨21, 6, MutationPayload.single "drawImage" [⟨true, "good"⟩]⟩

/-- Decode oracle of the claim C9 counterexample. -/
def c9Decode : String → Option Nat := fun _ => some 0

/-- First mutation of the claim C9 counterexample: no reference
arguments, so its resolution stores nothing. -/
def c9E0 : CanvasEvent := ⟨10, 5, MutationPayload.single "fillRect" [⟨false, "a"⟩]⟩

/-- Second mutation of the claim C9 counterexample: no reference
arguments either. -/
def c9E1 : CanvasEvent := ⟨11, 6, MutationPayload.single "fillRect" [⟨false, "b"⟩]⟩

/-- State of the claim C9 witness: the resolved mutation of event 50 is
already in the cache. -/
def c9Cached : PluginState :=
  { initState with canvasEventMap := [(50, ResolvedPayload.single "m" [])] }

/-- Event of the claim C9 witness, whose resolution is cached. -/
def c9CachedE : CanvasEvent := ⟨50, 9, MutationPayload.single "m" []⟩

/-! ## Association-list helpers -/

theorem lookup_cons_eq {α β : Type} [BEq α] [LawfulBEq α] (k : α) (v : β)
    (l : List (α × β)) : List.lookup k ((k, v) :: l) = some v := by
  simp [List.lookup_cons]

theorem lookup_cons_ne {α β : Type} [BEq α] [LawfulBEq α] (a k : α) (v : β)
    (l : List (α × β)) (h : a ≠ k) :
    List.lookup a ((k, v) :: l) = List.lookup a l := by
  have hb : (a == k) = false := beq_eq_false_iff_ne.mpr h
  simp [List.lookup_cons, hb]

/-! ## Apply-phase helpers -/

/-- The resize phase never throws when the mirror holds a live node: it
produces a registered target whose draw log is that of the previous target
for the id (empty when freshly cloned), leaving every other draw log and
the containers untouched. -/
theorem applyPhase1_proceed (mirror : Mirror) (st : PluginState)
    (e : CanvasEvent) (src : SourceNode) (h : mirror.lookup e.id = some src) :
    ∃ st1 : PluginState,
      applyPhase1 mirror st e = (st1, Phase1Result.proceed)
      ∧ (st1.canvases.lookup e.id).isSome = true
      ∧ (∀ cid, drawLogAt st1 cid = drawLogAt st cid)
      ∧ st1.containers = st.containers := by
  rcases hc : st.canvases.lookup e.id with _ | t0
  · refine ⟨{ st with canvases :=
        (e.id, ⟨src.clientWidth, src.clientHeight, []⟩) ::
          (e.id, ⟨src.attrWidth, src.attrHeight, []⟩) :: st.canvases },
      ?_, ?_, ?_, rfl⟩
    · simp [applyPhase1, cloneCanvas, h, hc]
    · simp [lookup_cons_eq]
    · intro cid
      by_cases hcid : cid = e.id
      · subst hcid
        simp [drawLogAt, lookup_cons_eq, hc]
      · simp [drawLogAt, lookup_cons_ne _ _ _ _ hcid]
  · refine ⟨{ st with canvases :=
        (e.id, ⟨src.clientWidth, src.clientHeight, t0.drawLog⟩) :: st.canvases },
      ?_, ?_, ?_, rfl⟩
    · simp [applyPhase1, h, hc]
    · simp [lookup_cons_eq]
    · intro cid
      by_cases hcid : cid = e.id
      · subst hcid
        simp [drawLogAt, lookup_cons_eq, hc]
      · simp [drawLogAt, lookup_cons_ne _ _ _ _ hcid]

/-- Completing the draw of a pending apply appends its event to the draw
log of its target and no other. -/
theorem applyPhase2_drawLogAt (st : PluginState) (e : CanvasEvent)
    (derr : Option String) (h : (st.canvases.lookup e.id).isSome = true)
    (cid : Nat) :
    drawLogAt (applyPhase2 st e derr) cid
      = drawLogAt st cid ++ (if e.id = cid then [e.eventId] else []) := by
  rcases hc : st.canvases.lookup e.id with _ | t
  · simp [hc] at h
  · cases derr <;>
      · simp only [applyPhase2, errorHandler, hc]
        rcases hcont : st.containers.lookup e.id with _ | ph <;>
          simp only [hcont] <;>
          by_cases hcid : cid = e.id
        · subst hcid
          simp [drawLogAt, lookup_cons_eq, hc]
        · have hne : ¬ e.id = cid := fun hcc => hcid hcc.symm
          simp [drawLogAt, lookup_cons_ne _ _ _ _ hcid, hne]
        · subst hcid
          simp [drawLogAt, lookup_cons_eq, hc]
        · have hne : ¬ e.id = cid := fun hcc => hcid hcc.symm
          simp [drawLogAt, lookup_cons_ne _ _ _ _ hcid, hne]

/-! ## Claim C5: ordering of applies on one canvas target -/

/-- One serialized arrive/complete pair: the handler spawn followed at
once by the completion of its awaited `canvasMutation`. -/
theorem sched_pair (mirror : Mirror) (st : PluginState) (c : CanvasEvent)
    (src : SourceNode) (h : mirror.lookup c.id = some src)
    (rest : List PStep) :
    ∃ st2 : PluginState,
      schedStep mirror (schedStep mirror ⟨st, []⟩ (PStep.arrive (REvent.canvas c)))
          (PStep.complete c.eventId none) = ⟨st2, []⟩
      ∧ validFrom mirror ⟨st, []⟩
          (PStep.arrive (REvent.canvas c) :: PStep.complete c.eventId none :: rest)
          = validFrom mirror ⟨st2, []⟩ rest
      ∧ ∀ cid, drawLogAt st2 cid
          = drawLogAt st cid ++ (if c.id = cid then [c.eventId] else []) := by
  obtain ⟨st1, h1, hsome, hlog, _⟩ := applyPhase1_proceed mirror (reset st) c src h
  have hhandler : handler mirror st (REvent.canvas c) true = (st1, some c) := by
    simp [handler, h1]
  have hstep1 : schedStep mirror ⟨st, []⟩ (PStep.arrive (REvent.canvas c))
      = ⟨st1, [c]⟩ := by
    simp [schedStep, hhandler]
  have hfind : List.find? (fun x => x.eventId == c.eventId) [c] = some c := by
    simp [List.find?]
  have hstep2 : schedStep mirror ⟨st1, [c]⟩ (PStep.complete c.eventId none)
      = ⟨applyPhase2 st1 c none, []⟩ := by
    simp [schedStep, hfind, List.eraseP_cons]
  refine ⟨applyPhase2 st1 c none, by rw [hstep1, hstep2], ?_, ?_⟩
  · simp [validFrom, hstep1, hstep2, hfind]
  · intro cid
    rw [applyPhase2_drawLogAt st1 c none hsome cid, hlog cid]
    rfl

/-- Claim C5 (amended): when applies do not overlap — each spawned apply
completes its awaited `canvasMutation` before the next event arrives (the
serialized schedule) — the mutations recorded for every canvas id take
effect on its target exactly in recorded order.  The counterexample shows
the guarantee does not extend to arbitrary interleavings of overlapping
applies, which the handler (firing `processMutation` without awaiting it)
permits. -/
theorem serialized_applies_in_order (mirror : Mirror) (es : List CanvasEvent)
    (st : PluginState) (h : ∀ c ∈ es, (mirror.lookup c.id).isSome = true) :
    validFrom mirror ⟨st, []⟩ (serializedSteps es) = true
    ∧ ∀ cid, drawLogAt (runSched mirror ⟨st, []⟩ (serializedSteps es)).st cid
        = drawLogAt st cid
          ++ (es.filter (fun c => c.id == cid)).map (fun c => c.eventId) := by
  induction es generalizing st with
  | nil => exact ⟨rfl, fun cid => by simp [serializedSteps, runSched]⟩
  | cons c cs ih =>
    have hsrc : (mirror.lookup c.id).isSome = true := h c (List.mem_cons_self c cs)
    obtain ⟨src, hsrc2⟩ := Option.isSome_iff_exists.mp hsrc
    obtain ⟨st2, hrun, hvalid, hlog⟩ :=
      sched_pair mirror st c src hsrc2 (serializedSteps cs)
    obtain ⟨ihv, ihl⟩ := ih st2 (fun x hx => h x (List.mem_cons_of_mem c hx))
    constructor
    · rw [serializedSteps, hvalid]
      exact ihv
    · intro cid
      rw [serializedSteps]
      show drawLogAt (runSched mirror
        (schedStep mirror (schedStep mirror ⟨st, []⟩ (PStep.arrive (REvent.canvas c)))
          (PStep.complete c.eventId none)) (serializedSteps cs)).st cid = _
      rw [hrun, ihl cid, hlog cid]
      by_cases hcid : c.id = cid
      · simp [List.filter_cons, hcid]
      · simp [List.filter_cons, hcid]

/-- Claim C5 counterexample: it is not the case that in every valid
interleaving of the asynchronous apply steps the draw calls applied to a
canvas target occur in recorded (arrival) order — in the interleaving
`c5Steps` the target of canvas id 5 receives the draw of the later
mutation (event 2) before that of the earlier one (event 1): its draw log
is `[2, 1]` while the recorded order is `[1, 2]`. -/
theorem apply_order_counterexample :
    ¬ (∀ (steps : List PStep) (cid : Nat),
        validFrom c5Mirror ⟨initState, []⟩ steps = true →
        (drawLogAt (runSched c5Mirror ⟨initState, []⟩ steps).st cid).Sublist
          (arrivals cid steps)) := by
  intro hclaim
  have h2 := hclaim c5Steps 5 (by decide)
  revert h2
  decide

/-- Witness for `serialized_applies_in_order`: the same two mutations,
serialized; the draw log comes out in recorded order `[1, 2]`. -/
theorem serialized_applies_in_order_witness :
    validFrom c5Mirror ⟨initState, []⟩ (serializedSteps [c5E1, c5E2]) = true
    ∧ drawLogAt (runSched c5Mirror ⟨initState, []⟩
        (serializedSteps [c5E1, c5E2])).st 5 = [1, 2] := by
  have h := serialized_applies_in_order c5Mirror [c5E1, c5E2] initState (by decide)
  exact ⟨h.1, (h.2 5).trans (by decide)⟩

/-! ## Claim C10: the handler ignores non-sync events -/

/-- Claim C10: for every event delivered to the handler with
`isSync = false` (normal forward playback), the handler is a complete
no-op — the state (scheduler cursor, preload window, both caches, the
canvas-target map, the placeholder map) is returned unchanged and no
apply is spawned. -/
theorem handler_not_sync_noop (mirror : Mirror) (st : PluginState)
    (e : REvent) : handler mirror st e false = (st, none) := rfl

/-! ## Claim C7: applying a mutation whose node is missing from the mirror -/

/-- Claim C7 (amended): applying a mutation whose canvasId has no live
node in the mirror is a throw-free no-op — no draw calls, no new
CanvasTarget — provided no CanvasTarget already exists for that id; when
one does exist, the apply instead raises a type error (the null source is
dereferenced on line 76) before any draw call, still changing nothing. -/
theorem missing_node_graceful (mirror : Mirror) (st : PluginState)
    (e : CanvasEvent) (derr : Option String)
    (h1 : mirror.lookup e.id = none)
    (h2 : st.canvases.lookup e.id = none) :
    processMutation mirror st e derr = (st, Phase1Result.skip)
    ∧ ∀ (st2 : PluginState) (t : CanvasTarget),
        st2.canvases.lookup e.id = some t →
        processMutation mirror st2 e derr = (st2, Phase1Result.threw) := by
  constructor
  · simp [processMutation, applyPhase1, h1, h2]
  · intro st2 t ht
    simp [processMutation, applyPhase1, h1, ht]

/-- Witness for `missing_node_graceful` at a concrete input. -/
theorem missing_node_graceful_witness :
    processMutation [] initState ⟨20, 5, MutationPayload.single "fillRect" []⟩
        none = (initState, Phase1Result.skip) :=
  (missing_node_graceful [] initState
    ⟨20, 5, MutationPayload.single "fillRect" []⟩ none rfl rfl).1

/-- Claim C7 counterexample: with an already-created CanvasTarget for
canvas id 5 and a mirror with no entry for id 5, the apply does not
complete cleanly — it raises a type error (`source.clientWidth` with
`source = null`), refuting "completes without throwing" as universally
stated. -/
theorem missing_node_counterexample :
    ([] : Mirror).lookup 5 = none
    ∧ processMutation [] c7State ⟨20, 5, MutationPayload.single "fillRect" []⟩
        none = (c7State, Phase1Result.threw) := by
  constructor
  · rfl
  · rfl

/-! ## Claim C8: target dimensions track the source at each apply -/

/-- Claim C8: after every apply that reaches its target (the mirror holds
a live node for the canvas id), the CanvasTarget's width and height equal
the client dimensions of the source node as observed during that apply
call. -/
theorem resize_on_apply (mirror : Mirror) (st : PluginState)
    (e : CanvasEvent) (src : SourceNode) (derr : Option String)
    (h : mirror.lookup e.id = some src) :
    ∃ t : CanvasTarget,
      (processMutation mirror st e derr).1.canvases.lookup e.id = some t
      ∧ t.width = src.clientWidth ∧ t.height = src.clientHeight := by
  rcases hc : st.canvases.lookup e.id with _ | t0 <;>
    rcases derr with _ | err <;>
      simp [processMutation, applyPhase1, applyPhase2, cloneCanvas,
        errorHandler, h, hc] <;>
    rcases hcont : List.lookup e.id st.containers with _ | ph <;>
      simp [hcont]

/-- Witness for `resize_on_apply`: two successive applies of mutations
for the same canvas id observing different source dimensions; after each
apply the target carries the dimensions observed by that apply. -/
theorem resize_on_apply_witness :
    (∃ t : CanvasTarget,
      (processMutation [(5, ⟨10, 10, 20, 20⟩)] initState
          ⟨1, 5, MutationPayload.single "fillRect" []⟩ none).1.canvases.lookup 5
        = some t ∧ t.width = 20 ∧ t.height = 20)
    ∧ ∃ t : CanvasTarget,
      (processMutation [(5, ⟨10, 10, 33, 44⟩)]
          (processMutation [(5, ⟨10, 10, 20, 20⟩)] initState
            ⟨1, 5, MutationPayload.single "fillRect" []⟩ none).1
          ⟨2, 5, MutationPayload.single "clearRect" []⟩ none).1.canvases.lookup 5
        = some t ∧ t.width = 33 ∧ t.height = 44 :=
  ⟨resize_on_apply [(5, ⟨10, 10, 20, 20⟩)] initState
      ⟨1, 5, MutationPayload.single "fillRect" []⟩ ⟨10, 10, 20, 20⟩ none rfl,
   resize_on_apply [(5, ⟨10, 10, 33, 44⟩)] _
      ⟨2, 5, MutationPayload.single "clearRect" []⟩ ⟨10, 10, 33, 44⟩ none rfl⟩

/-! ## Frame lemmas: state the resolution pipeline never touches -/

theorem lookup_cons_isSome {α β : Type} [BEq α] (a k : α) (v : β)
    (l : List (α × β)) (h : (List.lookup a l).isSome = true) :
    (List.lookup a ((k, v) :: l)).isSome = true := by
  rw [List.lookup_cons]
  cases hak : a == k <;> simp [h]

theorem deserializeCanvasArg_frame (d : String → Option Nat)
    (st : PluginState) (u : Bool) (a : CanvasArg) :
    (deserializeCanvasArg d st u a).1.preloadBuffer = st.preloadBuffer
    ∧ (deserializeCanvasArg d st u a).1.nextPreloadIndex = st.nextPreloadIndex
    ∧ (deserializeCanvasArg d st u a).1.canvasEventMap = st.canvasEventMap
    ∧ (deserializeCanvasArg d st u a).1.reported = st.reported := by
  unfold deserializeCanvasArg
  split
  · split
    · exact ⟨rfl, rfl, rfl, rfl⟩
    · split
      · exact ⟨rfl, rfl, rfl, rfl⟩
      · exact ⟨rfl, rfl, rfl, rfl⟩
  · exact ⟨rfl, rfl, rfl, rfl⟩

theorem resolveArgs_frame (d : String → Option Nat) (args : List CanvasArg) :
    ∀ (st : PluginState) (u : Bool),
    (resolveArgs d st u args).1.preloadBuffer = st.preloadBuffer
    ∧ (resolveArgs d st u args).1.nextPreloadIndex = st.nextPreloadIndex
    ∧ (resolveArgs d st u args).1.canvasEventMap = st.canvasEventMap
    ∧ (resolveArgs d st u args).1.reported = st.reported := by
  induction args with
  | nil => exact fun st u => ⟨rfl, rfl, rfl, rfl⟩
  | cons a rest ih =>
    intro st u
    have ha := deserializeCanvasArg_frame d st u a
    rcases hd : deserializeCanvasArg d st u a with ⟨st1, o⟩
    rw [hd] at ha
    rcases o with _ | ⟨u1, r⟩
    · simpa [resolveArgs, hd] using ha
    · have hr := ih st1 u1
      rcases hrest : resolveArgs d st1 u1 rest with ⟨st2, o2⟩
      rw [hrest] at hr
      rcases o2 with _ | ⟨u2, rs⟩ <;>
        · simp only [resolveArgs, hd, hrest]
          exact ⟨hr.1.trans ha.1, hr.2.1.trans ha.2.1,
            hr.2.2.1.trans ha.2.2.1, hr.2.2.2.trans ha.2.2.2⟩

theorem resolveCommands_frame (d : String → Option Nat)
    (cmds : List DrawCommand) :
    ∀ (st : PluginState) (u : Bool),
    (resolveCommands d st u cmds).1.preloadBuffer = st.preloadBuffer
    ∧ (resolveCommands d st u cmds).1.nextPreloadIndex = st.nextPreloadIndex
    ∧ (resolveCommands d st u cmds).1.canvasEventMap = st.canvasEventMap
    ∧ (resolveCommands d st u cmds).1.reported = st.reported := by
  induction cmds with
  | nil => exact fun st u => ⟨rfl, rfl, rfl, rfl⟩
  | cons c rest ih =>
    intro st u
    have ha := resolveArgs_frame d c.args st u
    rcases hd : resolveArgs d st u c.args with ⟨st1, o⟩
    rw [hd] at ha
    rcases o with _ | ⟨u1, r⟩
    · simpa [resolveCommands, hd] using ha
    · have hr := ih st1 u1
      rcases hrest : resolveCommands d st1 u1 rest with ⟨st2, o2⟩
      rw [hrest] at hr
      rcases o2 with _ | ⟨u2, rs⟩ <;>
        · simp only [resolveCommands, hd, hrest]
          exact ⟨hr.1.trans ha.1, hr.2.1.trans ha.2.1,
            hr.2.2.1.trans ha.2.2.1, hr.2.2.2.trans ha.2.2.2⟩

theorem deserializeAndPreload_frame (d : String → Option Nat)
    (st : PluginState) (e : CanvasEvent) :
    (deserializeAndPreloadCanvasEvents d st e).1.preloadBuffer = st.preloadBuffer
    ∧ (deserializeAndPreloadCanvasEvents d st e).1.nextPreloadIndex
        = st.nextPreloadIndex
    ∧ (deserializeAndPreloadCanvasEvents d st e).1.reported = st.reported := by
  unfold deserializeAndPreloadCanvasEvents
  split
  · exact ⟨rfl, rfl, rfl⟩
  · rcases e.payload with cmds | ⟨m, args⟩
    · have hf := resolveCommands_frame d cmds st true
      rcases hr : resolveCommands d st true cmds with ⟨st1, o⟩
      rw [hr] at hf
      rcases o with _ | ⟨u, rcmds⟩
      · simpa [hr] using ⟨hf.1, hf.2.1, hf.2.2.2⟩
      · simp only [hr]
        split <;> exact ⟨hf.1, hf.2.1, hf.2.2.2⟩
    · have hf := resolveArgs_frame d args st true
      rcases hr : resolveArgs d st true args with ⟨st1, o⟩
      rw [hr] at hf
      rcases o with _ | ⟨u, rargs⟩
      · simpa [hr] using ⟨hf.1, hf.2.1, hf.2.2.2⟩
      · simp only [hr]
        split <;> exact ⟨hf.1, hf.2.1, hf.2.2.2⟩

theorem deserializeAndPreload_cache_mono (d : String → Option Nat)
    (st : PluginState) (e : CanvasEvent) (k : Nat)
    (h : (st.canvasEventMap.lookup k).isSome = true) :
    (((deserializeAndPreloadCanvasEvents d st e).1.canvasEventMap.lookup k).isSome)
      = true := by
  unfold deserializeAndPreloadCanvasEvents
  split
  · exact h
  · rcases e.payload with cmds | ⟨m, args⟩
    · have hf := resolveCommands_frame d cmds st true
      rcases hr : resolveCommands d st true cmds with ⟨st1, o⟩
      rw [hr] at hf
      have hk1 : (st1.canvasEventMap.lookup k).isSome = true := by
        rw [hf.2.2.1]; exact h
      rcases o with _ | ⟨u, rcmds⟩
      · simpa [hr] using hk1
      · simp only [hr]
        split
        · exact lookup_cons_isSome _ _ _ _ hk1
        · exact hk1
    · have hf := resolveArgs_frame d args st true
      rcases hr : resolveArgs d st true args with ⟨st1, o⟩
      rw [hr] at hf
      have hk1 : (st1.canvasEventMap.lookup k).isSome = true := by
        rw [hf.2.2.1]; exact h
      rcases o with _ | ⟨u, rargs⟩
      · simpa [hr] using hk1
      · simp only [hr]
        split
        · exact lookup_cons_isSome _ _ _ _ hk1
        · exact hk1

/-- A failed resolution stores nothing in `canvasEventMap`. -/
theorem deserializeAndPreload_fail_cache (d : String → Option Nat)
    (st : PluginState) (e : CanvasEvent)
    (h : (deserializeAndPreloadCanvasEvents d st e).2 = false) :
    (deserializeAndPreloadCanvasEvents d st e).1.canvasEventMap
      = st.canvasEventMap := by
  by_cases hc : (st.canvasEventMap.lookup e.eventId).isSome = true
  · simp [deserializeAndPreloadCanvasEvents, hc] at h
  · rcases hp : e.payload with cmds | ⟨m, args⟩
    · have hf := resolveCommands_frame d cmds st true
      rcases hr : resolveCommands d st true cmds with ⟨st1, o⟩
      rw [hr] at hf
      rcases o with _ | ⟨u, rcmds⟩
      · simp only [deserializeAndPreloadCanvasEvents, if_neg hc, hp]
        simpa [hr] using hf.2.2.1
      · rcases u with _ | _ <;>
          simp [deserializeAndPreloadCanvasEvents, hc, hp, hr] at h
    · have hf := resolveArgs_frame d args st true
      rcases hr : resolveArgs d st true args with ⟨st1, o⟩
      rw [hr] at hf
      rcases o with _ | ⟨u, rargs⟩
      · simp only [deserializeAndPreloadCanvasEvents, if_neg hc, hp]
        simpa [hr] using hf.2.2.1
      · rcases u with _ | _ <;>
          simp [deserializeAndPreloadCanvasEvents, hc, hp, hr] at h

/-! ## Slice lemmas -/

theorem jsSlice_same {α : Type} (l : List α) (s : Int) : jsSlice l s s = [] := by
  simp [jsSlice]

theorem jsSlice_mem {α : Type} (l : List α) (s e : Int) (hs : 0 ≤ s) (x : α)
    (hx : x ∈ jsSlice l s e) :
    ∃ i : Nat, l[i]? = some x ∧ s ≤ (i : Int) := by
  unfold jsSlice at hx
  simp only [if_neg (not_lt.mpr hs)] at hx
  have hx2 : x ∈ l.drop (min s (l.length : Int)).toNat :=
    List.mem_of_mem_take hx
  by_cases hsl : s ≤ (l.length : Int)
  · have hmin : min s (l.length : Int) = s := min_eq_left hsl
    rw [hmin] at hx2
    obtain ⟨j, hj⟩ := List.mem_iff_getElem?.mp hx2
    rw [List.getElem?_drop] at hj
    refine ⟨s.toNat + j, hj, ?_⟩
    omega
  · have hmin : min s (l.length : Int) = (l.length : Int) :=
      min_eq_right (le_of_lt (not_le.mp hsl))
    rw [hmin, Int.toNat_natCast, List.drop_length] at hx2
    simp at hx2

/-! ## Preload step and loop lemmas -/

theorem preloadStep_buffer (d : String → Option Nat) (st : PluginState)
    (e : CanvasEvent) :
    (preloadStep d st e).mid.card ≤ st.preloadBuffer.card + 1
    ∧ (preloadStep d st e).st.preloadBuffer.card ≤ st.preloadBuffer.card + 1
    ∧ ((preloadStep d st e).ok = true →
        (preloadStep d st e).st.preloadBuffer = st.preloadBuffer)
    ∧ (preloadStep d st e).st.nextPreloadIndex = st.nextPreloadIndex := by
  unfold preloadStep
  split
  · rename_i hcond
    have hfr := deserializeAndPreload_frame d
      { st with preloadBuffer := insert e.eventId st.preloadBuffer } e
    rcases hde : deserializeAndPreloadCanvasEvents d
        { st with preloadBuffer := insert e.eventId st.preloadBuffer } e
      with ⟨st2, ok⟩
    rw [hde] at hfr
    have hb2 : st2.preloadBuffer = insert e.eventId st.preloadBuffer := hfr.1
    rcases ok with _ | _
    · simp only [hde]
      exact ⟨Finset.card_insert_le _ _,
        by rw [hb2]; exact Finset.card_insert_le _ _,
        by intro hcontra; simp at hcontra,
        hfr.2.1⟩
    · simp only [hde]
      refine ⟨Finset.card_insert_le _ _, ?_, ?_, hfr.2.1⟩
      · rw [hb2, Finset.erase_insert hcond.1]
        exact Nat.le_succ _
      · intro _
        rw [hb2, Finset.erase_insert hcond.1]
  · exact ⟨Nat.le_succ _, Nat.le_succ _, fun _ => rfl, rfl⟩

theorem preloadStep_cache_mono (d : String → Option Nat) (st : PluginState)
    (e : CanvasEvent) (k : Nat)
    (h : (st.canvasEventMap.lookup k).isSome = true) :
    ((preloadStep d st e).st.canvasEventMap.lookup k).isSome = true := by
  unfold preloadStep
  split
  · have hmono := deserializeAndPreload_cache_mono d
      { st with preloadBuffer := insert e.eventId st.preloadBuffer } e k h
    rcases hde : deserializeAndPreloadCanvasEvents d
        { st with preloadBuffer := insert e.eventId st.preloadBuffer } e
      with ⟨st2, ok⟩
    rw [hde] at hmono
    rcases ok with _ | _ <;> simp only [hde] <;> exact hmono
  · exact h

theorem preloadStep_skip_inflight (d : String → Option Nat)
    (st : PluginState) (e : CanvasEvent) (h : e.eventId ∈ st.preloadBuffer) :
    preloadStep d st e = ⟨st, true, false, st.preloadBuffer⟩ := by
  unfold preloadStep
  rw [if_neg]
  intro hcond
  exact hcond.1 h

theorem preloadStep_skip_cached (d : String → Option Nat)
    (st : PluginState) (e : CanvasEvent)
    (h : (st.canvasEventMap.lookup e.eventId).isSome = true) :
    preloadStep d st e = ⟨st, true, false, st.preloadBuffer⟩ := by
  unfold preloadStep
  rw [if_neg]
  intro hcond
  rw [hcond.2] at h
  simp at h

theorem preloadStep_enq_not_cached (d : String → Option Nat)
    (st : PluginState) (e : CanvasEvent)
    (h : (preloadStep d st e).enq = true) :
    st.canvasEventMap.lookup e.eventId = none := by
  unfold preloadStep at h
  split at h
  · rename_i hcond
    exact hcond.2
  · simp at h

theorem preloadLoop_card (d : String → Option Nat) (evs : List CanvasEvent) :
    ∀ st : PluginState,
    (∀ b ∈ (preloadLoop d st evs).trace, b.card ≤ st.preloadBuffer.card + 1)
    ∧ (preloadLoop d st evs).st.preloadBuffer.card ≤ st.preloadBuffer.card + 1
    ∧ (preloadLoop d st evs).st.nextPreloadIndex = st.nextPreloadIndex := by
  induction evs with
  | nil =>
    intro st
    exact ⟨by simp [preloadLoop], Nat.le_succ _, rfl⟩
  | cons e rest ih =>
    intro st
    have hstep := preloadStep_buffer d st e
    rcases hok : (preloadStep d st e).ok with _ | _
    · simp only [preloadLoop, hok, if_false, Bool.false_eq_true]
      refine ⟨?_, hstep.2.1, hstep.2.2.2⟩
      intro b hb
      simp only [List.mem_cons, List.mem_singleton, List.not_mem_nil] at hb
      rcases hb with hb | hb | hb
      · rw [hb]; exact hstep.1
      · rw [hb]; exact hstep.2.1
      · exact absurd hb (by simp)
    · have hbuf : (preloadStep d st e).st.preloadBuffer = st.preloadBuffer :=
        hstep.2.2.1 hok
      have ihs := ih (preloadStep d st e).st
      simp only [preloadLoop, hok, if_true]
      refine ⟨?_, ?_, ?_⟩
      · intro b hb
        simp only [List.mem_cons] at hb
        rcases hb with hb | hb | hb
        · rw [hb]; exact hstep.1
        · rw [hb, hbuf]; exact Nat.le_succ _
        · have := ihs.1 b hb
          rwa [hbuf] at this
      · have := ihs.2.1
        rwa [hbuf] at this
      · exact ihs.2.2.trans hstep.2.2.2

theorem preloadLoop_enqueued_mem (d : String → Option Nat)
    (evs : List CanvasEvent) :
    ∀ st : PluginState, ∀ ev ∈ (preloadLoop d st evs).enqueued, ev ∈ evs := by
  induction evs with
  | nil => simp [preloadLoop]
  | cons e rest ih =>
    intro st ev hev
    rcases hok : (preloadStep d st e).ok with _ | _ <;>
      simp only [preloadLoop, hok, if_false, if_true, Bool.false_eq_true] at hev
    · rcases henq : (preloadStep d st e).enq with _ | _ <;>
        simp [henq] at hev
      rw [hev]
      exact List.mem_cons_self e rest
    · rcases henq : (preloadStep d st e).enq with _ | _ <;>
        simp only [henq, if_true, if_false, Bool.false_eq_true,
          List.nil_append, List.cons_append, List.mem_cons] at hev
      · exact List.mem_cons_of_mem e (ih _ ev hev)
      · rcases hev with hev | hev
        · rw [hev]; exact List.mem_cons_self e rest
        · exact List.mem_cons_of_mem e (ih _ ev hev)

theorem preloadLoop_cached_not_enqueued (d : String → Option Nat)
    (evs : List CanvasEvent) :
    ∀ (st : PluginState) (k : Nat),
      (st.canvasEventMap.lookup k).isSome = true →
      ∀ ev ∈ (preloadLoop d st evs).enqueued, ev.eventId ≠ k := by
  induction evs with
  | nil => simp [preloadLoop]
  | cons e rest ih =>
    intro st k hk ev hev
    have henqk : (preloadStep d st e).enq = true → e.eventId ≠ k := by
      intro henq heq
      have hnone := preloadStep_enq_not_cached d st e henq
      rw [heq] at hnone
      rw [hnone] at hk
      simp at hk
    rcases hok : (preloadStep d st e).ok with _ | _ <;>
      simp only [preloadLoop, hok, if_false, if_true, Bool.false_eq_true] at hev
    · rcases henq : (preloadStep d st e).enq with _ | _ <;>
        simp [henq] at hev
      rw [hev]
      exact henqk henq
    · have hk2 := preloadStep_cache_mono d st e k hk
      rcases henq : (preloadStep d st e).enq with _ | _ <;>
        simp only [henq, if_true, if_false, Bool.false_eq_true,
          List.nil_append, List.cons_append, List.mem_cons] at hev
      · exact ih _ k hk2 ev hev
      · rcases hev with hev | hev
        · rw [hev]; exact henqk henq
        · exact ih _ k hk2 ev hev

theorem preloadLoop_cache_mono (d : String → Option Nat)
    (evs : List CanvasEvent) :
    ∀ (st : PluginState) (k : Nat),
      (st.canvasEventMap.lookup k).isSome = true →
      (((preloadLoop d st evs).st.canvasEventMap.lookup k).isSome) = true := by
  induction evs with
  | nil => intro st k hk; exact hk
  | cons e rest ih =>
    intro st k hk
    have hk2 := preloadStep_cache_mono d st e k hk
    rcases hok : (preloadStep d st e).ok with _ | _ <;>
      simp only [preloadLoop, hok, if_false, if_true, Bool.false_eq_true]
    · exact hk2
    · exact ih _ k hk2

/-! ## Preload (advance) lemmas -/

theorem preload_card (d : String → Option Nat) (events : List CanvasEvent)
    (st : PluginState) (cur : Option CanvasEvent)
    (h : st.preloadBuffer.card ≤ PRELOAD_BUFFER_SIZE) :
    (∀ b ∈ (preload d events st cur).trace, b.card ≤ PRELOAD_BUFFER_SIZE)
    ∧ (preload d events st cur).st.preloadBuffer.card ≤ PRELOAD_BUFFER_SIZE := by
  simp only [preload]
  by_cases hfull : st.preloadBuffer.card = PRELOAD_BUFFER_SIZE
  · have he : preloadStartIndex events st.nextPreloadIndex cur
        + (PRELOAD_BUFFER_SIZE : Int) - (st.preloadBuffer.card : Int)
        = preloadStartIndex events st.nextPreloadIndex cur := by
      rw [hfull]
      ring
    rw [he, jsSlice_same]
    exact ⟨by simp [preloadLoop], by simpa [preloadLoop] using h⟩
  · have hc : (PluginState.mk st.imageMap st.canvasEventMap st.preloadBuffer
        (some (preloadStartIndex events st.nextPreloadIndex cur + 1))
        st.canvases st.containers st.decodeCount
        st.reported).preloadBuffer.card = st.preloadBuffer.card := rfl
    exact ⟨fun b hb => le_trans ((preloadLoop_card d _ _).1 b hb) (by omega),
      le_trans (preloadLoop_card d _ _).2.1 (by omega)⟩

theorem preload_cache_mono (d : String → Option Nat)
    (events : List CanvasEvent) (st : PluginState) (cur : Option CanvasEvent)
    (k : Nat) (hk : (st.canvasEventMap.lookup k).isSome = true) :
    (((preload d events st cur).st.canvasEventMap.lookup k).isSome) = true := by
  simp only [preload]
  exact preloadLoop_cache_mono d _ _ k hk

theorem preload_cached_not_enqueued (d : String → Option Nat)
    (events : List CanvasEvent) (st : PluginState) (cur : Option CanvasEvent)
    (k : Nat) (hk : (st.canvasEventMap.lookup k).isSome = true) :
    ∀ ev ∈ (preload d events st cur).enqueued, ev.eventId ≠ k := by
  simp only [preload]
  exact preloadLoop_cached_not_enqueued d _ _ k hk

theorem preload_enqueued_from_start (d : String → Option Nat)
    (events : List CanvasEvent) (st : PluginState) (cur : Option CanvasEvent)
    (hs : 0 ≤ preloadStartIndex events st.nextPreloadIndex cur) :
    ∀ ev ∈ (preload d events st cur).enqueued,
      ∃ i : Nat, events[i]? = some ev
        ∧ preloadStartIndex events st.nextPreloadIndex cur ≤ (i : Int) := by
  intro ev hev
  simp only [preload] at hev
  have hmem := preloadLoop_enqueued_mem d _ _ ev hev
  exact jsSlice_mem events _ _ hs ev hmem

/-! ## Advance sequences -/

theorem runAdvances_card (d : String → Option Nat)
    (events : List CanvasEvent) (calls : List (Option CanvasEvent)) :
    ∀ st : PluginState, st.preloadBuffer.card ≤ PRELOAD_BUFFER_SIZE →
    (∀ b ∈ (runAdvances d events st calls).2.1, b.card ≤ PRELOAD_BUFFER_SIZE)
    ∧ (runAdvances d events st calls).1.preloadBuffer.card
        ≤ PRELOAD_BUFFER_SIZE := by
  induction calls with
  | nil =>
    intro st h
    refine ⟨?_, h⟩
    intro b hb
    simp only [runAdvances, List.mem_singleton] at hb
    rw [hb]
    exact h
  | cons c cs ih =>
    intro st h
    have hp := preload_card d events st c h
    have ihr := ih (preload d events st c).st hp.2
    refine ⟨?_, ihr.2⟩
    intro b hb
    have hb2 : b = st.preloadBuffer
        ∨ b ∈ (preload d events st c).trace
        ∨ b ∈ (runAdvances d events (preload d events st c).st cs).2.1 := by
      simpa [runAdvances] using hb
    rcases hb2 with hb2 | hb2 | hb2
    · rw [hb2]; exact h
    · exact hp.1 b hb2
    · exact ihr.1 b hb2

theorem runAdvances_cached_not_enqueued (d : String → Option Nat)
    (events : List CanvasEvent) (calls : List (Option CanvasEvent)) :
    ∀ (st : PluginState) (k : Nat),
      (st.canvasEventMap.lookup k).isSome = true →
      ∀ ev ∈ (runAdvances d events st calls).2.2, ev.eventId ≠ k := by
  induction calls with
  | nil => simp [runAdvances]
  | cons c cs ih =>
    intro st k hk ev hev
    simp only [runAdvances, List.mem_append] at hev
    rcases hev with hev | hev
    · exact preload_cached_not_enqueued d events st c k hk ev hev
    · exact ih _ k (preload_cache_mono d events st c k hk) ev hev

/-! ## Claim C1: the preload window is bounded by its capacity -/

/-- Claim C1: over every sequence of `advance` (preload) calls on the
canvas-event subsequence of any stream, every buffer content ever
observed — before each call and at every point inside each loop — has at
most `PRELOAD_BUFFER_SIZE` (30) members. -/
theorem preload_window_bounded (d : String → Option Nat)
    (stream : List REvent) (calls : List (Option CanvasEvent)) :
    ∀ b ∈ (runAdvances d (canvasMutationEvents stream) initState calls).2.1,
      b.card ≤ PRELOAD_BUFFER_SIZE :=
  fun b hb =>
    (runAdvances_card d (canvasMutationEvents stream) calls initState
      (by decide)).1 b hb

/-- Witness for `preload_window_bounded`: one advance over a one-event
stream; the in-flight buffer content `{40}` is observed in the trace and
respects the bound. -/
theorem preload_window_bounded_witness :
    ({40} : Finset Nat) ∈ (runAdvances c1Decode
        (canvasMutationEvents c1Stream) initState [none]).2.1
    ∧ ({40} : Finset Nat).card ≤ PRELOAD_BUFFER_SIZE :=
  ⟨by decide, preload_window_bounded c1Decode c1Stream [none] {40} (by decide)⟩

/-! ## Claim C2: the starting index after a reset -/

theorem findIdx?_le_of_getElem? {α : Type} (p : α → Bool) (l : List α)
    (k : Nat) (x : α) (hk : l[k]? = some x) (hp : p x = true) :
    ∃ j : Nat, l.findIdx? p = some j ∧ j ≤ k := by
  induction l generalizing k with
  | nil => simp at hk
  | cons a rest ih =>
    by_cases hpa : p a = true
    · exact ⟨0, by simp [List.findIdx?_cons, hpa], Nat.zero_le k⟩
    · have hpa2 : p a = false := by simpa using hpa
      cases k with
      | zero =>
        simp only [List.getElem?_cons_zero, Option.some.injEq] at hk
        rw [hk] at hpa2
        rw [hpa2] at hp
        simp at hp
      | succ k2 =>
        have hk2 : rest[k2]? = some x := by simpa using hk
        obtain ⟨j, hj, hjk⟩ := ih k2 hk2
        refine ⟨j + 1, ?_, Nat.succ_le_succ hjk⟩
        rw [List.findIdx?_cons, if_neg (by simp [hpa2]), List.findIdx?_succ, hj]
        rfl

theorem findEvent_le (events : List CanvasEvent) (e : CanvasEvent) (k : Nat)
    (hk : events[k]? = some e) :
    0 ≤ findEvent events e ∧ findEvent events e ≤ (k : Int) := by
  obtain ⟨j, hj, hjk⟩ :=
    findIdx?_le_of_getElem? (fun ev => ev.id == e.id) events k e hk (by simp)
  unfold findEvent
  rw [hj]
  refine ⟨?_, ?_⟩
  · show (0 : Int) ≤ (j : Int)
    exact Int.natCast_nonneg j
  · show (j : Int) ≤ (k : Int)
    exact_mod_cast hjk

/-- Claim C2 (amended): after `reset()` (cursor cleared), an advance call
given the event at index k of the canvas-event subsequence computes its
starting index as the index of the FIRST event with the same canvas id —
`findEvent` matches on `data.id`, not on event identity — which is at
most k but can be strictly smaller; every event it enqueues has index at
least that starting index.  With no cursor and no event given the
starting index is 0. -/
theorem reset_advance_start_index (d : String → Option Nat)
    (events : List CanvasEvent) (st : PluginState) (e : CanvasEvent) (k : Nat)
    (hcur : st.nextPreloadIndex = none) (hk : events[k]? = some e) :
    preloadStartIndex events st.nextPreloadIndex (some e) = findEvent events e
    ∧ 0 ≤ findEvent events e ∧ findEvent events e ≤ (k : Int)
    ∧ (∀ ev ∈ (preload d events st (some e)).enqueued,
        ∃ i : Nat, events[i]? = some ev ∧ findEvent events e ≤ (i : Int))
    ∧ preloadStartIndex events none none = 0 := by
  have hfe := findEvent_le events e k hk
  have hstart : preloadStartIndex events st.nextPreloadIndex (some e)
      = findEvent events e := by
    rw [hcur]
    rfl
  refine ⟨hstart, hfe.1, hfe.2, ?_, rfl⟩
  intro ev hev
  obtain ⟨i, hi, hle⟩ := preload_enqueued_from_start d events st (some e)
    (by rw [hstart]; exact hfe.1) ev hev
  exact ⟨i, hi, by rwa [hstart] at hle⟩

/-- Witness for `reset_advance_start_index` at a concrete input. -/
theorem reset_advance_start_index_witness :
    initState.nextPreloadIndex = none
    ∧ ([c2E0, c2E1])[1]? = some c2E1
    ∧ preloadStartIndex [c2E0, c2E1] initState.nextPreloadIndex (some c2E1)
        = findEvent [c2E0, c2E1] c2E1 :=
  ⟨rfl, rfl,
    (reset_advance_start_index c2Decode [c2E0, c2E1] initState c2E1 1
      rfl rfl).1⟩

/-- Claim C2 counterexample: after a reset, `advance` given `c2E1` — the
event at index 1 (c2E0 and c2E1 share canvas id 5 but are different
events) — enqueues `c2E0`, an event whose only index is 0: it is NOT the
case that every enqueued event has index at least 1. -/
theorem reset_advance_counterexample :
    ([c2E0, c2E1])[1]? = some c2E1
    ∧ initState.nextPreloadIndex = none
    ∧ ¬ (∀ ev ∈ (preload c2Decode [c2E0, c2E1] initState (some c2E1)).enqueued,
          ∃ i : Nat, ([c2E0, c2E1])[i]? = some ev ∧ (1 : Int) ≤ (i : Int)) := by
  refine ⟨rfl, rfl, ?_⟩
  intro hall
  obtain ⟨i, hi, hle⟩ := hall c2E0 (by decide)
  match i with
  | 0 => exact absurd hle (by decide)
  | 1 => exact absurd hi (by decide)
  | n + 2 => simp at hi

/-! ## Claim C9: leaving and re-entering the preload window -/

/-- Claim C9 (amended): once the resolution of an event completes, the
event leaves the preload window; it is never enqueued again by any later
sequence of advance calls PROVIDED its resolution stored a cache entry
(some argument was decoded).  An event resolved without change (nothing
cached) can re-enter the window — see the counterexample. -/
theorem resolved_cached_event_leaves_window (d : String → Option Nat)
    (events : List CanvasEvent) (st : PluginState) (e : CanvasEvent)
    (calls : List (Option CanvasEvent))
    (hcache : (st.canvasEventMap.lookup e.eventId).isSome = true) :
    (∀ ev ∈ (runAdvances d events st calls).2.2, ev.eventId ≠ e.eventId)
    ∧ (∀ st2 : PluginState, e.eventId ∉ st2.preloadBuffer →
        (preloadStep d st2 e).ok = true →
        e.eventId ∉ (preloadStep d st2 e).st.preloadBuffer) := by
  refine ⟨runAdvances_cached_not_enqueued d events calls st e.eventId hcache, ?_⟩
  intro st2 hnotin hok
  rw [(preloadStep_buffer d st2 e).2.2.1 hok]
  exact hnotin

/-- Witness for `resolved_cached_event_leaves_window` at a concrete
input. -/
theorem resolved_cached_event_leaves_window_witness :
    (c9Cached.canvasEventMap.lookup c9CachedE.eventId).isSome = true
    ∧ ∀ ev ∈ (runAdvances c9Decode [c9CachedE] c9Cached [none]).2.2,
        ev.eventId ≠ c9CachedE.eventId :=
  ⟨by decide,
    (resolved_cached_event_leaves_window c9Decode [c9CachedE] c9Cached
      c9CachedE [none] (by decide)).1⟩

/-- Claim C9 counterexample: the resolution of `c9E1` (no reference
arguments, so nothing is cached) completes during the first advance and
`c9E1` leaves the window — the buffer is empty afterwards — yet the
second advance enqueues `c9E1` again: the enqueue log over the two
advances is `[c9E0, c9E1, c9E1]`. -/
theorem resolved_event_reenters_window_counterexample :
    (runAdvances c9Decode [c9E0, c9E1] initState [none, none]).2.2
      = [c9E0, c9E1, c9E1]
    ∧ (runAdvances c9Decode [c9E0, c9E1] initState [none]).1.preloadBuffer
        = ∅ := by
  constructor <;> decide

/-! ## Claim C4: primitive-only mutations leave no cache entry -/

theorem refPayloadsArgs_nil_no_ref (args : List CanvasArg)
    (h : refPayloadsArgs args = []) : ∀ a ∈ args, a.isRef = false := by
  induction args with
  | nil => simp
  | cons a rest ih =>
    simp only [refPayloadsArgs, List.append_eq_nil] at h
    intro x hx
    have ha : a.isRef = false := by
      by_cases hr : a.isRef = true
      · rw [if_pos hr] at h
        simp at h
      · simpa using hr
    rcases List.mem_cons.mp hx with hx | hx
    · rw [hx]; exact ha
    · exact ih h.2 x hx

theorem resolveArgs_no_ref (d : String → Option Nat) (args : List CanvasArg)
    (h : ∀ a ∈ args, a.isRef = false) :
    ∀ (st : PluginState) (u : Bool),
      resolveArgs d st u args = (st, some (u, args.map ResolvedArg.plain)) := by
  induction args with
  | nil => intro st u; rfl
  | cons a rest ih =>
    intro st u
    have ha : a.isRef = false := h a (List.mem_cons_self a rest)
    have hrest := ih (fun x hx => h x (List.mem_cons_of_mem a hx)) st u
    simp [resolveArgs, deserializeCanvasArg, ha, hrest]

theorem resolveCommands_no_ref (d : String → Option Nat)
    (cmds : List DrawCommand)
    (h : ∀ c ∈ cmds, ∀ a ∈ c.args, a.isRef = false) :
    ∀ (st : PluginState) (u : Bool),
      resolveCommands d st u cmds = (st, some (u, cmds.map
        (fun c => ⟨c.method, c.args.map ResolvedArg.plain⟩))) := by
  induction cmds with
  | nil => intro st u; rfl
  | cons c rest ih =>
    intro st u
    have hc := h c (List.mem_cons_self c rest)
    have hrest := ih (fun x hx => h x (List.mem_cons_of_mem c hx)) st u
    simp [resolveCommands, resolveArgs_no_ref d c.args hc, hrest]

/-- Claim C4: resolving a canvas-mutation event none of whose draw-call
arguments is a SerializedReference stores no entry in `canvasEventMap`
and leaves the whole state unchanged (only changed resolutions are
retained; the `isUnchanged` status stays `true`). -/
theorem no_ref_args_no_cache_entry (d : String → Option Nat)
    (st : PluginState) (e : CanvasEvent)
    (h1 : st.canvasEventMap.lookup e.eventId = none)
    (h2 : refPayloads e = []) :
    deserializeAndPreloadCanvasEvents d st e = (st, true)
    ∧ (deserializeAndPreloadCanvasEvents d st e).1.canvasEventMap.lookup
        e.eventId = none := by
  have hmain : deserializeAndPreloadCanvasEvents d st e = (st, true) := by
    unfold deserializeAndPreloadCanvasEvents
    rw [if_neg (by simp [h1])]
    rcases hp : e.payload with cmds | ⟨m, args⟩
    · simp only [refPayloads, hp] at h2
      have hno : ∀ c ∈ cmds, ∀ a ∈ c.args, a.isRef = false := by
        intro c hc a ha
        apply refPayloadsArgs_nil_no_ref c.args ?_ a ha
        have hmemnil : refPayloadsArgs c.args
            ∈ cmds.map (fun x => refPayloadsArgs x.args) :=
          List.mem_map_of_mem _ hc
        rcases hx : refPayloadsArgs c.args with _ | ⟨q, qs⟩
        · rfl
        · rw [hx] at hmemnil
          have : q ∈ (cmds.map (fun x => refPayloadsArgs x.args)).flatten :=
            List.mem_flatten.mpr ⟨q :: qs, hmemnil, List.mem_cons_self q qs⟩
          rw [h2] at this
          simp at this
      simp [resolveCommands_no_ref d cmds hno st true]
    · simp only [refPayloads, hp] at h2
      have hno := refPayloadsArgs_nil_no_ref args h2
      simp [resolveArgs_no_ref d args hno st true]
  exact ⟨hmain, by rw [hmain]; exact h1⟩

/-- Witness for `no_ref_args_no_cache_entry` at a concrete input: a
batched mutation with primitive-only arguments. -/
theorem no_ref_args_no_cache_entry_witness :
    initState.canvasEventMap.lookup c4E.eventId = none
    ∧ deserializeAndPreloadCanvasEvents c4Decode initState c4E
        = (initState, true) :=
  ⟨rfl, (no_ref_args_no_cache_entry c4Decode initState c4E rfl
    (by decide)).1⟩

/-! ## Claim C3: the decode-count bookkeeping of resolution -/

theorem countOf_bump_self (p : String) (m : List (String × Nat)) :
    countOf p (bumpCount p m) = countOf p m + 1 := by
  simp [countOf, bumpCount, lookup_cons_eq]

theorem countOf_bump_ne (p q : String) (m : List (String × Nat))
    (h : p ≠ q) : countOf p (bumpCount q m) = countOf p m := by
  simp [countOf, bumpCount, lookup_cons_ne _ _ _ _ h]

theorem ite_decode_compose {β : Type} [DecidableEq β] (o o1 : Option β)
    (A B : Prop) [Decidable A] [Decidable B]
    (h : o1.isSome = true ↔ (o.isSome = true ∨ A)) :
    ((if o = none ∧ A then 1 else 0) : Nat)
      + (if o1 = none ∧ B then 1 else 0)
      = if o = none ∧ (A ∨ B) then 1 else 0 := by
  have h1 : o1 = none ↔ (o = none ∧ ¬ A) := by
    cases o <;> cases o1 <;> simp_all
  by_cases h0 : o = none <;> by_cases hA : A <;> by_cases hB : B <;>
    simp [h0, hA, hB, h1]

theorem mem_refPayloadsArgs_cons (a : CanvasArg) (rest : List CanvasArg)
    (p : String) :
    p ∈ refPayloadsArgs (a :: rest)
      ↔ ((a.isRef = true ∧ p = a.payload) ∨ p ∈ refPayloadsArgs rest) := by
  simp only [refPayloadsArgs, List.mem_append]
  by_cases hr : a.isRef = true
  · simp [hr]
  · simp [hr]

theorem deserializeCanvasArg_spec (d : String → Option Nat)
    (st : PluginState) (u : Bool) (a : CanvasArg)
    (hd : a.isRef = true → (d a.payload).isSome = true) :
    ∃ (st1 : PluginState) (u1 : Bool) (r : ResolvedArg),
      deserializeCanvasArg d st u a = (st1, some (u1, r))
      ∧ (∀ p : String, (st1.imageMap.lookup p).isSome = true ↔
          ((st.imageMap.lookup p).isSome = true
            ∨ (a.isRef = true ∧ p = a.payload)))
      ∧ (∀ p : String, countOf p st1.decodeCount = countOf p st.decodeCount
          + (if st.imageMap.lookup p = none ∧ (a.isRef = true ∧ p = a.payload)
             then 1 else 0))
      ∧ u1 = (u && !a.isRef) := by
  by_cases hr : a.isRef = true
  · rcases hm : st.imageMap.lookup a.payload with _ | hdl
    · obtain ⟨hv, hveq⟩ := Option.isSome_iff_exists.mp (hd hr)
      refine ⟨{ st with imageMap := (a.payload, hv) :: st.imageMap, decodeCount := bumpCount a.payload st.decodeCount }, false, ResolvedArg.decoded hv, ?_, ?_, ?_, by simp [hr]⟩
      · simp [deserializeCanvasArg, hr, hm, hveq]
      · intro p
        by_cases hp : p = a.payload
        · subst hp
          simp [lookup_cons_eq, hr]
        · simp [lookup_cons_ne _ _ _ _ hp, hp]
      · intro p
        by_cases hp : p = a.payload
        · subst hp
          simp [countOf_bump_self, hm, hr]
        · simp [countOf_bump_ne _ _ _ hp, hp]
    · refine ⟨st, false, ResolvedArg.decoded hdl, ?_, ?_, ?_, by simp [hr]⟩
      · simp [deserializeCanvasArg, hr, hm]
      · intro p
        by_cases hp : p = a.payload
        · subst hp
          simp [hm, hr]
        · simp [hp]
      · intro p
        by_cases hp : p = a.payload
        · subst hp
          simp [hm]
        · simp [hp]
  · have hr2 : a.isRef = false := by simpa using hr
    refine ⟨st, u, ResolvedArg.plain a, ?_, ?_, ?_, by simp [hr2]⟩
    · simp [deserializeCanvasArg, hr2]
    · intro p
      simp [hr2]
    · intro p
      simp [hr2]

theorem resolveArgs_spec (d : String → Option Nat) (args : List CanvasArg) :
    ∀ (st : PluginState) (u : Bool),
      (∀ q ∈ refPayloadsArgs args, (d q).isSome = true) →
      ∃ (st2 : PluginState) (u2 : Bool) (rs : List ResolvedArg),
        resolveArgs d st u args = (st2, some (u2, rs))
        ∧ (∀ p, (st2.imageMap.lookup p).isSome = true ↔
            ((st.imageMap.lookup p).isSome = true ∨ p ∈ refPayloadsArgs args))
        ∧ (∀ p, countOf p st2.decodeCount = countOf p st.decodeCount
            + (if st.imageMap.lookup p = none ∧ p ∈ refPayloadsArgs args
               then 1 else 0))
        ∧ u2 = (u && args.all (fun a => !a.isRef)) := by
  induction args with
  | nil =>
    intro st u h
    exact ⟨st, u, [], rfl, by simp [refPayloadsArgs],
      by simp [refPayloadsArgs], by simp⟩
  | cons a rest ih =>
    intro st u h
    have hda : a.isRef = true → (d a.payload).isSome = true := by
      intro hr
      exact h a.payload ((mem_refPayloadsArgs_cons a rest a.payload).mpr
        (Or.inl ⟨hr, rfl⟩))
    obtain ⟨st1, u1, r, heq1, hiff1, hcnt1, hu1⟩ :=
      deserializeCanvasArg_spec d st u a hda
    have hdr : ∀ q ∈ refPayloadsArgs rest, (d q).isSome = true := by
      intro q hq
      exact h q ((mem_refPayloadsArgs_cons a rest q).mpr (Or.inr hq))
    obtain ⟨st2, u2, rs, heq2, hiff2, hcnt2, hu2⟩ := ih st1 u1 hdr
    refine ⟨st2, u2, r :: rs, ?_, ?_, ?_, ?_⟩
    · simp [resolveArgs, heq1, heq2]
    · intro p
      rw [hiff2 p, hiff1 p, mem_refPayloadsArgs_cons]
      tauto
    · intro p
      rw [hcnt2 p, hcnt1 p, Nat.add_assoc,
        ite_decode_compose (st.imageMap.lookup p) (st1.imageMap.lookup p)
          _ _ (hiff1 p)]
      simp only [mem_refPayloadsArgs_cons]
    · rw [hu2, hu1]
      simp [Bool.and_assoc]

theorem resolveCommands_spec (d : String → Option Nat)
    (cmds : List DrawCommand) :
    ∀ (st : PluginState) (u : Bool),
      (∀ q ∈ (cmds.map (fun c => refPayloadsArgs c.args)).flatten,
        (d q).isSome = true) →
      ∃ (st2 : PluginState) (u2 : Bool) (rcs : List ResolvedCommand),
        resolveCommands d st u cmds = (st2, some (u2, rcs))
        ∧ (∀ p, (st2.imageMap.lookup p).isSome = true ↔
            ((st.imageMap.lookup p).isSome = true
              ∨ p ∈ (cmds.map (fun c => refPayloadsArgs c.args)).flatten))
        ∧ (∀ p, countOf p st2.decodeCount = countOf p st.decodeCount
            + (if st.imageMap.lookup p = none
                  ∧ p ∈ (cmds.map (fun c => refPayloadsArgs c.args)).flatten
               then 1 else 0))
        ∧ u2 = (u && cmds.all (fun c => c.args.all (fun a => !a.isRef))) := by
  induction cmds with
  | nil =>
    intro st u h
    exact ⟨st, u, [], rfl, by simp, by simp, by simp⟩
  | cons c rest ih =>
    intro st u h
    simp only [List.map_cons, List.flatten_cons] at h ⊢
    have hdc : ∀ q ∈ refPayloadsArgs c.args, (d q).isSome = true := by
      intro q hq
      exact h q (List.mem_append_left _ hq)
    obtain ⟨st1, u1, rs, heq1, hiff1, hcnt1, hu1⟩ :=
      resolveArgs_spec d c.args st u hdc
    have hdr : ∀ q ∈ (rest.map (fun x => refPayloadsArgs x.args)).flatten,
        (d q).isSome = true := by
      intro q hq
      exact h q (List.mem_append_right _ hq)
    obtain ⟨st2, u2, rcs, heq2, hiff2, hcnt2, hu2⟩ := ih st1 u1 hdr
    refine ⟨st2, u2, ⟨c.method, rs⟩ :: rcs, ?_, ?_, ?_, ?_⟩
    · simp [resolveCommands, heq1, heq2]
    · intro p
      rw [hiff2 p, hiff1 p, List.mem_append]
      tauto
    · intro p
      rw [hcnt2 p, hcnt1 p, Nat.add_assoc,
        ite_decode_compose (st.imageMap.lookup p) (st1.imageMap.lookup p)
          _ _ (hiff1 p)]
      simp only [List.mem_append]
    · rw [hu2, hu1]
      simp [Bool.and_assoc]

theorem refPayloadsArgs_ne_nil_all (args : List CanvasArg)
    (h : ¬ refPayloadsArgs args = []) :
    args.all (fun a => !a.isRef) = false := by
  induction args with
  | nil => simp [refPayloadsArgs] at h
  | cons a rest ih =>
    by_cases hr : a.isRef = true
    · simp [List.all_cons, hr]
    · have hr2 : a.isRef = false := by simpa using hr
      simp only [refPayloadsArgs, hr2, Bool.false_eq_true, if_false,
        List.nil_append] at h
      simp [List.all_cons, hr2, ih h]

theorem refPayloadsBatch_ne_nil_all (cmds : List DrawCommand)
    (h : ¬ (cmds.map (fun c => refPayloadsArgs c.args)).flatten = []) :
    cmds.all (fun c => c.args.all (fun a => !a.isRef)) = false := by
  induction cmds with
  | nil => simp at h
  | cons c rest ih =>
    simp only [List.map_cons, List.flatten_cons] at h
    by_cases hc : refPayloadsArgs c.args = []
    · rw [hc, List.nil_append] at h
      simp [List.all_cons, ih h]
    · simp [List.all_cons, refPayloadsArgs_ne_nil_all c.args hc]

theorem deserializeAndPreload_spec (d : String → Option Nat)
    (st : PluginState) (e : CanvasEvent)
    (hnc : st.canvasEventMap.lookup e.eventId = none)
    (hd : ∀ q ∈ refPayloads e, (d q).isSome = true)
    (href : ¬ refPayloads e = []) :
    ∃ st2 : PluginState,
      deserializeAndPreloadCanvasEvents d st e = (st2, true)
      ∧ (st2.canvasEventMap.lookup e.eventId).isSome = true
      ∧ (∀ p, countOf p st2.decodeCount = countOf p st.decodeCount
          + (if st.imageMap.lookup p = none ∧ p ∈ refPayloads e
             then 1 else 0))
      ∧ (∀ p, (st2.imageMap.lookup p).isSome = true ↔
          ((st.imageMap.lookup p).isSome = true ∨ p ∈ refPayloads e)) := by
  rcases hp : e.payload with cmds | ⟨m, args⟩
  · simp only [refPayloads, hp] at hd href ⊢
    obtain ⟨st1, u1, rcs, heq, hiff, hcnt, hu⟩ :=
      resolveCommands_spec d cmds st true hd
    have hu1 : u1 = false := by
      rw [hu, refPayloadsBatch_ne_nil_all cmds href]
      simp
    refine ⟨{ st1 with canvasEventMap := (e.eventId, ResolvedPayload.batch rcs) :: st1.canvasEventMap }, ?_, ?_, ?_, ?_⟩
    · simp [deserializeAndPreloadCanvasEvents, hnc, hp, heq, hu1]
    · simp [lookup_cons_eq]
    · intro p
      simpa using hcnt p
    · intro p
      simpa using hiff p
  · simp only [refPayloads, hp] at hd href ⊢
    obtain ⟨st1, u1, rargs, heq, hiff, hcnt, hu⟩ :=
      resolveArgs_spec d args st true hd
    have hu1 : u1 = false := by
      rw [hu, refPayloadsArgs_ne_nil_all args href]
      simp
    refine ⟨{ st1 with canvasEventMap := (e.eventId, ResolvedPayload.single m rargs) :: st1.canvasEventMap }, ?_, ?_, ?_, ?_⟩
    · simp [deserializeAndPreloadCanvasEvents, hnc, hp, heq, hu1]
    · simp [lookup_cons_eq]
    · intro p
      simpa using hcnt p
    · intro p
      simpa using hiff p

/-- Claim C3: resolving a mutation that carries a SerializedReference
argument twice through the resolution path triggers exactly one decode of
its referenced payload — the first resolution decodes it (once, even when
several arguments reference the same payload) and caches the resolved
mutation, the second request is skipped by the cache guard — and a
request issued while the event is still in flight (in the preload buffer)
is skipped by the buffer guard without any decode. -/
theorem resolve_twice_single_decode (d : String → Option Nat)
    (st : PluginState) (e : CanvasEvent) (p : String)
    (h1 : st.canvasEventMap.lookup e.eventId = none)
    (h2 : e.eventId ∉ st.preloadBuffer)
    (h3 : p ∈ refPayloads e)
    (h4 : st.imageMap.lookup p = none)
    (h5 : ∀ q ∈ refPayloads e, (d q).isSome = true) :
    countOf p (preloadStep d (preloadStep d st e).st e).st.decodeCount
      = countOf p st.decodeCount + 1
    ∧ (∀ stf : PluginState, e.eventId ∈ stf.preloadBuffer →
        preloadStep d stf e = ⟨stf, true, false, stf.preloadBuffer⟩) := by
  have href : ¬ refPayloads e = [] := by
    intro hnil
    rw [hnil] at h3
    simp at h3
  obtain ⟨st2, heq, hcache, hcnt, hiff⟩ := deserializeAndPreload_spec d
    { st with preloadBuffer := insert e.eventId st.preloadBuffer } e h1 h5 href
  have hstep1 : preloadStep d st e =
      ⟨{ st2 with preloadBuffer := st2.preloadBuffer.erase e.eventId }, true, true, insert e.eventId st.preloadBuffer⟩ := by
    unfold preloadStep
    rw [if_pos ⟨h2, h1⟩]
    simp [heq]
  have hskip := preloadStep_skip_cached d
    { st2 with preloadBuffer := st2.preloadBuffer.erase e.eventId } e hcache
  refine ⟨?_, fun stf hin => preloadStep_skip_inflight d stf e hin⟩
  have hfinal : (preloadStep d (preloadStep d st e).st e).st.decodeCount
      = st2.decodeCount := by
    rw [hstep1]
    simp only
    rw [hskip]
  rw [hfinal, hcnt p]
  have hcond : List.lookup p ({ st with preloadBuffer := insert e.eventId st.preloadBuffer } : PluginState).imageMap = none := h4
  rw [if_pos ⟨hcond, h3⟩]

/-- Witness for `resolve_twice_single_decode` at a concrete input: the
payload "img", referenced twice by the arguments of `c3E`, is decoded
exactly once across two resolution requests. -/
theorem resolve_twice_single_decode_witness :
    countOf "img" (preloadStep c3Decode
        (preloadStep c3Decode initState c3E).st c3E).st.decodeCount
      = countOf "img" initState.decodeCount + 1 :=
  (resolve_twice_single_decode c3Decode initState c3E "img" rfl (by decide)
    (by decide) rfl (by decide)).1

/-! ## Claim C6: what a failed decode actually does -/

/-- Claim C6 (amended): when the decode of a SerializedReference argument
of a mutation fails, that mutation's resolution is indeed absent from the
resolved-mutation cache (so it is skipped at apply time), but the failure
is NOT reported to the external error-reporting collaborator and the
resolution of the other mutations does not continue: the rejection aborts
the preload loop — the remaining events of that pass are not resolved and
the failing event stays in the preload buffer — and the fire-and-forget
`void preload()` swallows the rejected promise. -/
theorem decode_failure_aborts_preload (d : String → Option Nat)
    (st : PluginState) (e : CanvasEvent) (rest : List CanvasEvent)
    (h1 : st.canvasEventMap.lookup e.eventId = none)
    (h2 : e.eventId ∉ st.preloadBuffer)
    (hf : (deserializeAndPreloadCanvasEvents d { st with preloadBuffer := insert e.eventId st.preloadBuffer } e).2 = false) :
    (preloadLoop d st (e :: rest)).ok = false
    ∧ (preloadLoop d st (e :: rest)).enqueued = [e]
    ∧ e.eventId ∈ (preloadLoop d st (e :: rest)).st.preloadBuffer
    ∧ (preloadLoop d st (e :: rest)).st.canvasEventMap.lookup e.eventId
        = none
    ∧ (preloadLoop d st (e :: rest)).st.reported = st.reported := by
  have hfr := deserializeAndPreload_frame d
    { st with preloadBuffer := insert e.eventId st.preloadBuffer } e
  have hfc := deserializeAndPreload_fail_cache d
    { st with preloadBuffer := insert e.eventId st.preloadBuffer } e hf
  rcases hde : deserializeAndPreloadCanvasEvents d
      { st with preloadBuffer := insert e.eventId st.preloadBuffer } e
    with ⟨st2, ok⟩
  rw [hde] at hfr hfc hf
  have hok : ok = false := hf
  subst hok
  have hstep : preloadStep d st e = ⟨st2, false, true, insert e.eventId st.preloadBuffer⟩ := by
    unfold preloadStep
    rw [if_pos ⟨h2, h1⟩]
    simp [hde]
  have hloop : preloadLoop d st (e :: rest) = ⟨st2, false, [e], [insert e.eventId st.preloadBuffer, st2.preloadBuffer]⟩ := by
    simp [preloadLoop, hstep]
  rw [hloop]
  refine ⟨rfl, rfl, ?_, ?_, hfr.2.2⟩
  · show e.eventId ∈ st2.preloadBuffer
    rw [hfr.1]
    exact Finset.mem_insert_self _ _
  · show st2.canvasEventMap.lookup e.eventId = none
    rw [hfc]
    exact h1

/-- Witness for `decode_failure_aborts_preload` at a concrete input: the
decode of "bad" rejects. -/
theorem decode_failure_aborts_preload_witness :
    (preloadLoop c6Decode initState [c6Fail, c6Next]).ok = false
    ∧ (preloadLoop c6Decode initState [c6Fail, c6Next]).enqueued = [c6Fail]
    ∧ c6Fail.eventId
        ∈ (preloadLoop c6Decode initState [c6Fail, c6Next]).st.preloadBuffer
    ∧ (preloadLoop c6Decode initState
        [c6Fail, c6Next]).st.canvasEventMap.lookup c6Fail.eventId = none
    ∧ (preloadLoop c6Decode initState [c6Fail, c6Next]).st.reported
        = initState.reported :=
  decode_failure_aborts_preload c6Decode initState c6Fail [c6Next] rfl
    (by decide) (by decide)

/-- Claim C6 counterexample: with the decode of "bad" rejecting, one
`preload` pass over `[c6Fail, c6Next]` leaves the failing mutation out of
the cache (that part of the claim holds) — but, refuting the rest of the
claim, nothing is reported to the error collaborator, the following
mutation `c6Next` is neither enqueued nor resolved (the loop aborted),
and the failing event remains stuck in the preload buffer. -/
theorem decode_failure_counterexample :
    (preload c6Decode [c6Fail, c6Next] initState none).ok = false
    ∧ (preload c6Decode [c6Fail, c6Next] initState none).st.canvasEventMap.lookup
        20 = none
    ∧ (preload c6Decode [c6Fail, c6Next] initState none).st.reported = []
    ∧ (preload c6Decode [c6Fail, c6Next] initState none).st.canvasEventMap.lookup
        21 = none
    ∧ (preload c6Decode [c6Fail, c6Next] initState none).enqueued = [c6Fail]
    ∧ 20 ∈ (preload c6Decode [c6Fail, c6Next] initState none).st.preloadBuffer := by
  refine ⟨?_, ?_, ?_, ?_, ?_, ?_⟩ <;> decide

end CanvasPlugin
